import Mathlib

/-!
# Verification of the BisonHacks2026 telemetry/feedback core

Shallow embedding of the Python sources:
* `RaspberryPi/inputs/mouse_input.py`  — position integrator (`MouseInput`)
* `RaspberryPi/network/ws_client.py`   — bounded lossy send queue (`WebSocketClient.send_json`)
* `RaspberryPi/main.py`                — grid cell resolution (`cell_from_xy`)
* `RaspberryPi/outputs/audio_output.py`— intensity-to-gain map (`LoopingWavOutput.set_level`)
* `Computer/network/ws_server.py`      — receiver record dispatch (`WebSocketPositionServer._handler`)
* `Computer/main_window.py`            — TTS generation-counter controller (`MainWindow.speak`,
  `MainWindow._toggle_tts`, `MainWindow._on_remote_mouse_pos`)

Machine integers of the source are modelled as `Int`/`Nat`; Python floats are
modelled as `ℚ` (the properties below concern the exact arithmetic the code
performs, none of them depends on binary rounding of the float type).
-/

namespace MouseInput

/-- Configuration fields of `MouseConfig` (RaspberryPi/config.py) that
`MouseInput` reads.  `scale_x`/`scale_y` are Python floats, modelled as ℚ. -/
structure MouseConfig where
  min_x : Int
  max_x : Int
  min_y : Int
  max_y : Int
  start_x : Int
  start_y : Int
  startup_samples : Int
  scale_x : ℚ
  scale_y : ℚ
deriving Repr

/-- The mutable state of a `MouseInput` instance: integrated absolute position
`_x`, `_y` and the `_moved` dirty flag. -/
structure MouseState where
  x : Int
  y : Int
  moved : Bool
deriving Repr, DecidableEq

/-- `MouseInput._clamp`: clamp each coordinate with
`max(min_v, min(max_v, v))`. -/
def _clamp (cfg : MouseConfig) (x y : Int) : Int × Int :=
  (max cfg.min_x (min cfg.max_x x), max cfg.min_y (min cfg.max_y y))

/-- The locked integration block of `MouseInput._run`:
`new = pos + int(round(d * scale))`, then `_clamp`, then `_moved = True`.
Python `round` is round-half-to-even while Mathlib `round` is
round-half-up; they agree except at exact halves, and no claim below
depends on the tie-breaking rule (the result is clamped either way). -/
def applyDelta (cfg : MouseConfig) (s : MouseState) (dx dy : Int) : MouseState :=
  let nx := s.x + round ((dx : ℚ) * cfg.scale_x)
  let ny := s.y + round ((dy : ℚ) * cfg.scale_y)
  let p := _clamp cfg nx ny
  ⟨p.1, p.2, true⟩

/-- `MouseInput.set_absolute_position`: clamp and store, set `_moved`. -/
def set_absolute_position (cfg : MouseConfig) (s : MouseState) (x y : Int) : MouseState :=
  let p := _clamp cfg x y
  ⟨p.1, p.2, true⟩

/-- `MouseInput.get_absolute_position`: snapshot of `(x, y)`. -/
def get_absolute_position (s : MouseState) : Int × Int :=
  (s.x, s.y)

/-- `MouseInput.is_moved`: returns the `_moved` flag and clears it. -/
def is_moved (s : MouseState) : Bool × MouseState :=
  (s.moved, { s with moved := false })

/-- `MouseInput._apply_startup_average`: when `startup_samples > 0`, store
`int(round(sum([start] * n) / n))` for each axis (`sum([v] * n) = n * v`). -/
def _apply_startup_average (cfg : MouseConfig) (s : MouseState) : MouseState :=
  if cfg.startup_samples ≤ 0 then s
  else
    { s with
      x := round (((cfg.startup_samples * cfg.start_x : Int) : ℚ) / (cfg.startup_samples : ℚ))
      y := round (((cfg.startup_samples * cfg.start_y : Int) : ℚ) / (cfg.startup_samples : ℚ)) }

/-- `MouseInput.__init__`: store `start_x`, `start_y` (no clamping), clear the
flag, then run the startup-stabilization step. -/
def initState (cfg : MouseConfig) : MouseState :=
  _apply_startup_average cfg ⟨cfg.start_x, cfg.start_y, false⟩

/-- A mutation of the position: a delta integration step or an explicit set. -/
inductive MOp
  | delta (dx dy : Int)
  | setp (x y : Int)
deriving Repr, DecidableEq

/-- Apply one mutation. -/
def applyOp (cfg : MouseConfig) (s : MouseState) : MOp → MouseState
  | .delta dx dy => applyDelta cfg s dx dy
  | .setp x y => set_absolute_position cfg s x y

/-- Apply a sequence of mutations, oldest first. -/
def runOps (cfg : MouseConfig) (s : MouseState) (ops : List MOp) : MouseState :=
  ops.foldl (applyOp cfg) s

/-- The position lies within the configured bounds. -/
def inBounds (cfg : MouseConfig) (s : MouseState) : Prop :=
  cfg.min_x ≤ s.x ∧ s.x ≤ cfg.max_x ∧ cfg.min_y ≤ s.y ∧ s.y ≤ cfg.max_y

instance (cfg : MouseConfig) (s : MouseState) : Decidable (inBounds cfg s) := by
  unfold inBounds; infer_instance

lemma clamp_mem_left (cfg : MouseConfig) (hx : cfg.min_x ≤ cfg.max_x) (x y : Int) :
    cfg.min_x ≤ (_clamp cfg x y).1 ∧ (_clamp cfg x y).1 ≤ cfg.max_x := by
  unfold _clamp
  constructor
  · exact le_max_left _ _
  · simp only [max_le_iff]
    exact ⟨hx, min_le_left _ _⟩

lemma clamp_mem_right (cfg : MouseConfig) (hy : cfg.min_y ≤ cfg.max_y) (x y : Int) :
    cfg.min_y ≤ (_clamp cfg x y).2 ∧ (_clamp cfg x y).2 ≤ cfg.max_y := by
  unfold _clamp
  constructor
  · exact le_max_left _ _
  · simp only [max_le_iff]
    exact ⟨hy, min_le_left _ _⟩

lemma applyOp_inBounds (cfg : MouseConfig) (hx : cfg.min_x ≤ cfg.max_x)
    (hy : cfg.min_y ≤ cfg.max_y) (s : MouseState) (op : MOp) :
    inBounds cfg (applyOp cfg s op) := by
  cases op with
  | delta dx dy =>
    unfold applyOp applyDelta inBounds
    have h1 := clamp_mem_left cfg hx (s.x + round ((dx : ℚ) * cfg.scale_x))
      (s.y + round ((dy : ℚ) * cfg.scale_y))
    have h2 := clamp_mem_right cfg hy (s.x + round ((dx : ℚ) * cfg.scale_x))
      (s.y + round ((dy : ℚ) * cfg.scale_y))
    exact ⟨h1.1, h1.2, h2.1, h2.2⟩
  | setp x y =>
    unfold applyOp set_absolute_position inBounds
    have h1 := clamp_mem_left cfg hx x y
    have h2 := clamp_mem_right cfg hy x y
    exact ⟨h1.1, h1.2, h2.1, h2.2⟩

/-- C2: after any nonempty sequence of mutations (delta integrations or
explicit sets), the stored position lies within
`[min_x, max_x] × [min_y, max_y]`; both mutation paths clamp before storing. -/
theorem position_always_in_bounds (cfg : MouseConfig)
    (hx : cfg.min_x ≤ cfg.max_x) (hy : cfg.min_y ≤ cfg.max_y)
    (s : MouseState) (op : MOp) (ops : List MOp) :
    inBounds cfg (runOps cfg s (op :: ops)) := by
  induction ops generalizing s op with
  | nil => exact applyOp_inBounds cfg hx hy s op
  | cons op2 rest ih =>
    show inBounds cfg (runOps cfg (applyOp cfg s op) (op2 :: rest))
    exact ih (applyOp cfg s op) op2

/-- Witness for C2 at a concrete configuration and delta sequence. -/
theorem position_always_in_bounds_witness :
    (0 : Int) ≤ 1600 ∧ (0 : Int) ≤ 1101 ∧
      inBounds ⟨0, 1600, 0, 1101, 800, 550, 10, 1, 1⟩
        (runOps ⟨0, 1600, 0, 1101, 800, 550, 10, 1, 1⟩ ⟨800, 550, false⟩
          [.delta 5000 (-9000), .setp (-3) 20]) :=
  ⟨by decide, by decide,
    position_always_in_bounds ⟨0, 1600, 0, 1101, 800, 550, 10, 1, 1⟩
      (by decide) (by decide) ⟨800, 550, false⟩ (.delta 5000 (-9000)) [.setp (-3) 20]⟩

/-- C8: `is_moved` returns the dirty flag and atomically clears it; every
mutation (delta integration or explicit set) sets the flag; hence it returns
`true` exactly once per batch of mutations since the last consumption and
`false` on every subsequent call until the next mutation. -/
theorem is_moved_consume_semantics (cfg : MouseConfig) (s t : MouseState)
    (op : MOp) (ops : List MOp) :
    (is_moved s).1 = s.moved ∧
    (is_moved s).2 = { s with moved := false } ∧
    (applyOp cfg s op).moved = true ∧
    (is_moved (runOps cfg (is_moved s).2 (op :: ops))).1 = true ∧
    (is_moved (is_moved t).2).1 = false := by
  refine ⟨rfl, rfl, ?_, ?_, rfl⟩
  · cases op <;> rfl
  · have key : ∀ (l : List MOp) (u : MouseState) (o : MOp),
        (runOps cfg u (o :: l)).moved = true := by
      intro l
      induction l with
      | nil => intro u o; cases o <;> rfl
      | cons o2 rest ih =>
        intro u o
        show (runOps cfg (applyOp cfg u o) (o2 :: rest)).moved = true
        exact ih (applyOp cfg u o) o2
    exact key ops (is_moved s).2 op

/-- C10: the constructor and the startup-stabilization step store
`start_x`/`start_y` without clamping, so `get_absolute_position` returns an
out-of-bounds start position unchanged until the first mutation; witnessed by
a concrete configuration whose start lies outside its bounds. -/
theorem init_does_not_clamp_start (cfg : MouseConfig) :
    get_absolute_position (initState cfg) = (cfg.start_x, cfg.start_y) ∧
    get_absolute_position (initState ⟨0, 10, 0, 10, 50, 50, 10, 1, 1⟩) = (50, 50) ∧
    ¬ inBounds ⟨0, 10, 0, 10, 50, 50, 10, 1, 1⟩ (initState ⟨0, 10, 0, 10, 50, 50, 10, 1, 1⟩) := by
  have general : ∀ c : MouseConfig,
      get_absolute_position (initState c) = (c.start_x, c.start_y) := by
    intro c
    unfold initState _apply_startup_average get_absolute_position
    by_cases h : c.startup_samples ≤ 0
    · simp [h]
    · have hn : (c.startup_samples : ℚ) ≠ 0 := by
        push_neg at h
        exact_mod_cast h.ne'
      have key : ∀ v : Int,
          round (((c.startup_samples * v : Int) : ℚ) / (c.startup_samples : ℚ)) = v := by
        intro v
        push_cast
        rw [mul_comm, mul_div_assoc, div_self hn, mul_one, round_intCast]
      simp only [h, if_false, key]
  refine ⟨general cfg, general _, ?_⟩
  intro hb
  have hx : (initState (⟨0, 10, 0, 10, 50, 50, 10, 1, 1⟩ : MouseConfig)).x = 50 :=
    congrArg Prod.fst (general ⟨0, 10, 0, 10, 50, 50, 10, 1, 1⟩)
  have h2 : (initState (⟨0, 10, 0, 10, 50, 50, 10, 1, 1⟩ : MouseConfig)).x ≤ 10 := hb.2.1
  rw [hx] at h2
  exact absurd h2 (by decide)

end MouseInput

namespace WsClient

/-- `WebSocketClient.send_json` (RaspberryPi/network/ws_client.py) acting on
the backing `asyncio.Queue` of capacity `N`, modelled as a list (front =
oldest).  `put_nowait` raises `QueueFull` iff `0 < N` and the queue holds at
least `N` items (an asyncio queue with `maxsize ≤ 0` is unbounded); on
overflow the code pops the oldest item (`get_nowait`; an empty queue is
silently ignored, matching `drop 1 [] = []`) and retries the put once. -/
def send_json (N : Nat) (q : List α) (m : α) : List α :=
  if N = 0 ∨ q.length < N then q ++ [m]
  else
    let q2 := q.drop 1
    if N = 0 ∨ q2.length < N then q2 ++ [m] else q2

/-- Folding `send_json` over a message list from the empty queue keeps the
sliding window of the most recent `N` messages. -/
lemma send_json_foldl_window (N : Nat) (hN : 0 < N) (l : List α) :
    List.foldl (send_json N) [] l = l.drop (l.length - N) := by
  induction l using List.reverseRecOn with
  | nil => simp
  | append_singleton l m ih =>
    rw [List.foldl_append, List.foldl_cons, List.foldl_nil, ih]
    rcases lt_or_le l.length N with hlen | hlen
    · have h0 : l.length - N = 0 := Nat.sub_eq_zero_of_le (le_of_lt hlen)
      have h1 : l.length + 1 - N = 0 := Nat.sub_eq_zero_of_le hlen
      rw [h0, List.drop_zero]
      unfold send_json
      rw [if_pos (Or.inr hlen)]
      simp [h1]
    · have hwlen : (l.drop (l.length - N)).length = N := by
        rw [List.length_drop]
        omega
      unfold send_json
      rw [if_neg (by omega), if_pos (by rw [List.drop_drop, List.length_drop]; omega)]
      rw [List.drop_drop]
      rw [List.length_append, List.length_singleton]
      have hdrop : (l ++ [m]).drop (l.length + 1 - N) = l.drop (l.length + 1 - N) ++ [m] :=
        List.drop_append_of_le_length (by omega)
      rw [hdrop]
      have harith : l.length - N + 1 = l.length + 1 - N := by omega
      rw [harith]

/-- C3: `send_json` never blocks (it is a total function); when the queue of
capacity `N` holds at most `N` items the new message is always admitted, a
full queue drops its oldest entry, and pushing `N + 1` items `0, …, N` into an
empty queue leaves item `0` absent and item `N` present. -/
theorem send_json_drop_oldest (N : Nat) (hN : 0 < N) :
    (∀ (q : List Nat) (m : Nat), q.length ≤ N → m ∈ send_json N q m) ∧
    (∀ (q : List Nat) (m : Nat), q.length = N → send_json N q m = q.drop 1 ++ [m]) ∧
    0 ∉ List.foldl (send_json N) [] (List.range (N + 1)) ∧
    N ∈ List.foldl (send_json N) [] (List.range (N + 1)) := by
  have hfull : ∀ (q : List Nat) (m : Nat), q.length = N → send_json N q m = q.drop 1 ++ [m] := by
    intro q m hq
    unfold send_json
    rw [if_neg (by omega), if_pos (by rw [List.length_drop]; omega)]
  have hwindow := send_json_foldl_window N hN (List.range (N + 1))
  rw [List.length_range] at hwindow
  have hN1 : N + 1 - N = 1 := by omega
  rw [hN1] at hwindow
  have hdrop1 : (List.range (N + 1)).drop 1 = (List.range N).map Nat.succ := by
    rw [List.range_succ_eq_map]
    rfl
  refine ⟨?_, hfull, ?_, ?_⟩
  · intro q m hq
    rcases lt_or_eq_of_le hq with h | h
    · unfold send_json
      rw [if_pos (Or.inr h)]
      exact List.mem_append_right _ (List.mem_singleton_self m)
    · rw [hfull q m h]
      exact List.mem_append_right _ (List.mem_singleton_self m)
  · rw [hwindow, hdrop1]
    intro hmem
    rcases List.mem_map.mp hmem with ⟨a, _, ha⟩
    exact Nat.succ_ne_zero a ha
  · rw [hwindow, hdrop1]
    refine List.mem_map.mpr ⟨N - 1, ?_, by omega⟩
    exact List.mem_range.mpr (by omega)

/-- Witness for C3 at capacity `N = 3`. -/
theorem send_json_drop_oldest_witness :
    (∀ (q : List Nat) (m : Nat), q.length ≤ 3 → m ∈ send_json 3 q m) ∧
    (∀ (q : List Nat) (m : Nat), q.length = 3 → send_json 3 q m = q.drop 1 ++ [m]) ∧
    0 ∉ List.foldl (send_json 3) [] (List.range 4) ∧
    3 ∈ List.foldl (send_json 3) [] (List.range 4) :=
  send_json_drop_oldest 3 (by decide)

end WsClient

namespace GridResolver

/-- Python `int()` applied to a real number: truncation toward zero. -/
def pyInt (q : ℚ) : Int :=
  if 0 ≤ q then ⌊q⌋ else ⌈q⌉

/-- `ROWS`, `COLS` and `COL_LABELS` from RaspberryPi/main.py. -/
def ROWS : Int := 6

def COLS : Int := 6

def COL_LABELS : List String := ["A", "B", "C", "D", "E", "F"]

/-- `cell_from_xy` (RaspberryPi/main.py): guard the viewport with
`max(1, ·)`, truncate `x / w * COLS` and `y / h * ROWS`, clamp the indices
into `0 … 5` and encode the cell as `COL_LABELS[col] + str(row + 1)`.
Returns `(label, row, col)` with 0-based indices.  The Python floats carry
exact values for the integer inputs the claims use; division is modelled
exactly over ℚ. -/
def cell_from_xy (x y : Int) (w h : Int) : String × Int × Int :=
  let w := max 1 w
  let h := max 1 h
  let col0 := pyInt ((x : ℚ) / (w : ℚ) * (COLS : ℚ))
  let row0 := pyInt ((y : ℚ) / (h : ℚ) * (ROWS : ℚ))
  let col := max 0 (min (COLS - 1) col0)
  let row := max 0 (min (ROWS - 1) row0)
  (COL_LABELS.getD col.toNat "" ++ toString (row + 1), row, col)

/-- Clamping into `[0, 5]` erases the difference between truncation toward
zero and `floor`: they agree on nonnegative inputs, and both land at `0`
after clamping on negative inputs. -/
lemma clamp_pyInt_eq_clamp_floor (q : ℚ) :
    max 0 (min 5 (pyInt q)) = max 0 (min 5 ⌊q⌋) := by
  unfold pyInt
  by_cases h : 0 ≤ q
  · rw [if_pos h]
  · rw [if_neg h]
    push_neg at h
    have hceil : ⌈q⌉ ≤ 0 := Int.ceil_le.mpr (by exact_mod_cast le_of_lt h)
    have hfloor : ⌊q⌋ ≤ 0 := Int.floor_nonpos (le_of_lt h)
    omega

/-- C4: for positive viewports the resolved column is
`clamp(floor(x / w * cols), 0, cols - 1)` and the row is
`clamp(floor(y / h * rows), 0, rows - 1)`; `(0, 0)` in a `100 × 100`
viewport resolves to cell `"A1"`, `(99, 99)` to `"F6"`, and the
out-of-range `x = 150` clamps to the last column. -/
theorem cell_from_xy_spec (x y w h : Int) (hw : 0 < w) (hh : 0 < h) :
    (cell_from_xy x y w h).2.2 = max 0 (min 5 ⌊(x : ℚ) / (w : ℚ) * 6⌋) ∧
    (cell_from_xy x y w h).2.1 = max 0 (min 5 ⌊(y : ℚ) / (h : ℚ) * 6⌋) ∧
    cell_from_xy 0 0 100 100 = ("A1", 0, 0) ∧
    cell_from_xy 99 99 100 100 = ("F6", 5, 5) ∧
    (cell_from_xy 150 y 100 h).2.2 = 5 := by
  have hmaxw : max 1 w = w := max_eq_right hw
  have hmaxh : max 1 h = h := max_eq_right hh
  refine ⟨?_, ?_, ?_, ?_, ?_⟩
  · show max 0 (min (COLS - 1) (pyInt ((x : ℚ) / ((max 1 w : Int) : ℚ) * (COLS : ℚ)))) = _
    rw [hmaxw]
    exact clamp_pyInt_eq_clamp_floor _
  · show max 0 (min (ROWS - 1) (pyInt ((y : ℚ) / ((max 1 h : Int) : ℚ) * (ROWS : ℚ)))) = _
    rw [hmaxh]
    exact clamp_pyInt_eq_clamp_floor _
  · have h0 : pyInt (((0 : Int) : ℚ) / ((max 1 (100 : Int) : Int) : ℚ) * ((COLS : Int) : ℚ)) = 0 := by
      norm_num [pyInt, COLS]
    show (COL_LABELS.getD (max 0 (min (COLS - 1)
        (pyInt (((0 : Int) : ℚ) / ((max 1 (100 : Int) : Int) : ℚ) * ((COLS : Int) : ℚ))))).toNat ""
        ++ toString ((max 0 (min (ROWS - 1)
        (pyInt (((0 : Int) : ℚ) / ((max 1 (100 : Int) : Int) : ℚ) * ((ROWS : Int) : ℚ))))) + 1),
        max 0 (min (ROWS - 1)
          (pyInt (((0 : Int) : ℚ) / ((max 1 (100 : Int) : Int) : ℚ) * ((ROWS : Int) : ℚ)))),
        max 0 (min (COLS - 1)
          (pyInt (((0 : Int) : ℚ) / ((max 1 (100 : Int) : Int) : ℚ) * ((COLS : Int) : ℚ))))) = _
    rw [show ((ROWS : Int) : ℚ) = ((COLS : Int) : ℚ) by norm_num [ROWS, COLS], h0]
    rfl
  · have h99 : pyInt (((99 : Int) : ℚ) / ((max 1 (100 : Int) : Int) : ℚ) * ((COLS : Int) : ℚ)) = 5 := by
      norm_num [pyInt, COLS, Int.floor_eq_iff]
    show (COL_LABELS.getD (max 0 (min (COLS - 1)
        (pyInt (((99 : Int) : ℚ) / ((max 1 (100 : Int) : Int) : ℚ) * ((COLS : Int) : ℚ))))).toNat ""
        ++ toString ((max 0 (min (ROWS - 1)
        (pyInt (((99 : Int) : ℚ) / ((max 1 (100 : Int) : Int) : ℚ) * ((ROWS : Int) : ℚ))))) + 1),
        max 0 (min (ROWS - 1)
          (pyInt (((99 : Int) : ℚ) / ((max 1 (100 : Int) : Int) : ℚ) * ((ROWS : Int) : ℚ)))),
        max 0 (min (COLS - 1)
          (pyInt (((99 : Int) : ℚ) / ((max 1 (100 : Int) : Int) : ℚ) * ((COLS : Int) : ℚ))))) = _
    rw [show ((ROWS : Int) : ℚ) = ((COLS : Int) : ℚ) by norm_num [ROWS, COLS], h99]
    rfl
  · show max 0 (min (COLS - 1)
        (pyInt (((150 : Int) : ℚ) / ((max 1 (100 : Int) : Int) : ℚ) * ((COLS : Int) : ℚ)))) = 5
    norm_num [pyInt, COLS]

/-- Witness for C4 at `(x, y) = (0, 0)` in a `100 × 100` viewport. -/
theorem cell_from_xy_spec_witness :
    (cell_from_xy 0 0 100 100).2.2 = max 0 (min 5 ⌊((0 : Int) : ℚ) / ((100 : Int) : ℚ) * 6⌋) ∧
    (cell_from_xy 0 0 100 100).2.1 = max 0 (min 5 ⌊((0 : Int) : ℚ) / ((100 : Int) : ℚ) * 6⌋) ∧
    cell_from_xy 0 0 100 100 = ("A1", 0, 0) ∧
    cell_from_xy 99 99 100 100 = ("F6", 5, 5) ∧
    (cell_from_xy 150 0 100 100).2.2 = 5 :=
  cell_from_xy_spec 0 0 100 100 (by decide) (by decide)

end GridResolver

namespace AudioOutput

/-- `LoopingWavOutput.set_level` (RaspberryPi/outputs/audio_output.py),
reduced to the gain it stores: clamp the level into `[0, 100]`, normalize,
clamp `min_intensity` into `[0, 1]` and `intensity_factor` to be
non-negative, form `min_intensity + raw * intensity_factor` and clamp the
result into `[0, 1]`.  The if-chains mirror the source; Python floats are
modelled as ℚ. -/
def set_level_gain (level : ℚ) (min_intensity intensity_factor : ℚ) : ℚ :=
  let lv := level
  let lv := if lv < 0 then 0 else lv
  let lv := if lv > 100 then 100 else lv
  let raw := lv / 100
  let mi := if min_intensity < 0 then 0 else min_intensity
  let mi := if mi > 1 then 1 else mi
  let f := if intensity_factor < 0 then 0 else intensity_factor
  let gain := mi + raw * f
  let gain := if gain < 0 then 0 else gain
  if gain > 1 then 1 else gain

/-- The gain formula as the spec words it, with `min`/`max` clamps. -/
def gainSpec (level min_intensity intensity_factor : ℚ) : ℚ :=
  max 0 (min 1
    (max 0 (min 1 min_intensity) + max 0 (min 100 level) / 100 * max 0 intensity_factor))

lemma clamp_chain_eq_max_min (v lo hi : ℚ) (hlohi : lo ≤ hi) :
    (if (if v < lo then lo else v) > hi then hi else (if v < lo then lo else v)) =
      max lo (min hi v) := by
  rcases lt_or_le v lo with h | h
  · rw [if_pos h, if_neg (not_lt.mpr hlohi)]
    rw [max_eq_left (le_trans (min_le_right _ _) (le_of_lt h))]
  · rw [if_neg (not_lt.mpr h)]
    rcases lt_or_le hi v with h2 | h2
    · rw [if_pos h2, max_eq_right (le_min hlohi (le_trans hlohi (le_of_lt h2)))]
      rw [min_eq_left (le_of_lt h2)]
    · rw [if_neg (not_lt.mpr h2), min_eq_right h2, max_eq_right h]

/-- C5: `set_level` computes
`gain = clamp(clamp(min_intensity, 0, 1) + clamp(level, 0, 100) / 100 *
max(intensity_factor, 0), 0, 1)`; with `min_intensity = 0.2` and
`intensity_factor = 1.5`, level `0` gives gain `0.2`, level `100` gives
gain `1`, and level `40` gives gain `0.8`. -/
theorem set_level_gain_spec (level min_intensity intensity_factor : ℚ) :
    set_level_gain level min_intensity intensity_factor =
      gainSpec level min_intensity intensity_factor ∧
    set_level_gain 0 (2/10) (15/10) = 2/10 ∧
    set_level_gain 100 (2/10) (15/10) = 1 ∧
    set_level_gain 40 (2/10) (15/10) = 8/10 := by
  have general : ∀ lv mi f : ℚ, set_level_gain lv mi f = gainSpec lv mi f := by
    intro lv mi f
    simp only [set_level_gain, gainSpec]
    rw [clamp_chain_eq_max_min lv 0 100 (by norm_num),
      clamp_chain_eq_max_min mi 0 1 (by norm_num)]
    have hf : (if f < 0 then (0 : ℚ) else f) = max 0 f := by
      rcases lt_or_le f 0 with h | h
      · rw [if_pos h, max_eq_left (le_of_lt h)]
      · rw [if_neg (not_lt.mpr h), max_eq_right h]
    rw [hf]
    have harg : (0 : ℚ) ≤ max 0 (min 1 mi) + max 0 (min 100 lv) / 100 * max 0 f := by
      have h1 : (0 : ℚ) ≤ max 0 (min 1 mi) := le_max_left _ _
      have h2 : (0 : ℚ) ≤ max 0 (min 100 lv) / 100 := by positivity
      have h3 : (0 : ℚ) ≤ max 0 f := le_max_left _ _
      nlinarith
    rw [if_neg (not_lt.mpr harg)]
    rcases lt_or_le (1 : ℚ) (max 0 (min 1 mi) + max 0 (min 100 lv) / 100 * max 0 f) with h | h
    · rw [if_pos h, min_eq_left (le_of_lt h), max_eq_right zero_le_one]
    · rw [if_neg (not_lt.mpr h), min_eq_right h, max_eq_right harg]
  refine ⟨general level min_intensity intensity_factor, ?_, ?_, ?_⟩ <;>
  · rw [general]
    unfold gainSpec
    norm_num

end AudioOutput

namespace WsServer

/-- A JSON value sitting in a field of a decoded record.  Only the shapes the
receiver distinguishes are modelled: numbers (ints and floats carry exact
rationals here) and strings.  Python `float()` on a numeric string can also
succeed; the telemetry producer only ever sends numbers, and no claim below
concerns numeric strings, so `str` is kept opaque to `float()`. -/
inductive JVal
  | num (q : ℚ)
  | str (s : String)
deriving Repr, DecidableEq

/-- Python `float(v)`: `none` models a raised `TypeError`/`ValueError`. -/
def asFloat : JVal → Option ℚ
  | .num q => some q
  | .str _ => none

/-- A decoded `json.loads` object (a flat record), with each relevant field
optional — `obj.get(k)` returns `None` when `k` is missing. -/
structure MsgObj where
  type? : Option JVal
  x? : Option JVal
  y? : Option JVal
  w? : Option JVal
  h? : Option JVal
deriving Repr, DecidableEq

/-- What one loop iteration of `WebSocketPositionServer._handler` does with
one inbound text frame. -/
inductive HandlerStep
  | continue_ (callback : Option (ℚ × ℚ × ℚ × ℚ))
  | terminate
deriving Repr, DecidableEq

/-- One iteration of the `async for` loop in `_handler`
(Computer/network/ws_server.py): a frame that fails `json.loads` is skipped
(`continue`); a `"mouse_pos"` record converts `x`, `y`, `w`, `h` with
`float(obj.get(k, default))` (defaults `0, 0, 1, 1`) and invokes
`on_mouse_pos`; a failed conversion raises out of the loop and ends the
connection; `"hello"` is logged; any other (or missing) `type` is ignored. -/
def handleRecord (raw : Option MsgObj) : HandlerStep :=
  match raw with
  | none => .continue_ none
  | some obj =>
    if obj.type? = some (.str "mouse_pos") then
      match asFloat (obj.x?.getD (.num 0)), asFloat (obj.y?.getD (.num 0)),
          asFloat (obj.w?.getD (.num 1)), asFloat (obj.h?.getD (.num 1)) with
      | some x, some y, some w, some h => .continue_ (some (x, y, w, h))
      | _, _, _, _ => .terminate
    else .continue_ none

/-- The callback payload of a handler step, if one was dispatched. -/
def HandlerStep.callbackOf : HandlerStep → Option (ℚ × ℚ × ℚ × ℚ)
  | .continue_ cb => cb
  | .terminate => none

/-- The scene rectangle of the image canvas (`QRectF`): `isNull` holds when
both extents are zero. -/
structure Rect where
  left : ℚ
  top : ℚ
  width : ℚ
  height : ℚ
deriving Repr, DecidableEq

def Rect.isNull (r : Rect) : Prop := r.width = 0 ∧ r.height = 0

instance (r : Rect) : Decidable r.isNull := by
  unfold Rect.isNull; infer_instance

/-- `MainWindow._on_remote_mouse_pos` (Computer/main_window.py): the consumer
of the position callback.  Returns the point handed to
`controller.update_point`, or `none` when the update is dropped
(`rect.isNull() or w <= 0 or h <= 0`). -/
def _on_remote_mouse_pos (rect : Rect) (x y w h : ℚ) : Option (ℚ × ℚ) :=
  if rect.isNull ∨ w ≤ 0 ∨ h ≤ 0 then none
  else
    let nx := max 0 (min 1 (x / w))
    let ny := max 0 (min 1 (y / h))
    some (rect.left + nx * rect.width, rect.top + ny * rect.height)

/-- The concrete `mouse_pos` record with a non-positive viewport width used
to refute C6 as stated. -/
def c6obj : MsgObj :=
  { type? := some (.str "mouse_pos"), x? := some (.num 10), y? := some (.num 10),
    w? := some (.num (-5)), h? := some (.num 100) }

/-- C6 counterexample: on a `mouse_pos` record whose `w` field is present
and not strictly positive, `_handler` still invokes the position callback
(with the non-positive width), contradicting the claim that the record is
dropped before the callback. -/
theorem handler_invokes_callback_on_nonpositive_viewport :
    c6obj.w? = some (.num (-5)) ∧ ¬ (0 : ℚ) < -5 ∧
    (handleRecord (some c6obj)).callbackOf = some (10, 10, -5, 100) := by
  refine ⟨rfl, by norm_num, rfl⟩

/-- C6 amended: `_handler` dispatches the position callback for every
`mouse_pos` record with convertible fields, non-positive viewport included,
and keeps the connection alive; the drop happens one stage downstream, in
`_on_remote_mouse_pos`, which performs no position update when
`w ≤ 0` or `h ≤ 0`. -/
theorem nonpositive_viewport_dropped_downstream (obj : MsgObj) (x y w h : ℚ) (rect : Rect)
    (htype : obj.type? = some (.str "mouse_pos"))
    (hx : asFloat (obj.x?.getD (.num 0)) = some x)
    (hy : asFloat (obj.y?.getD (.num 0)) = some y)
    (hw : asFloat (obj.w?.getD (.num 1)) = some w)
    (hh : asFloat (obj.h?.getD (.num 1)) = some h)
    (hbad : w ≤ 0 ∨ h ≤ 0) :
    handleRecord (some obj) = .continue_ (some (x, y, w, h)) ∧
    _on_remote_mouse_pos rect x y w h = none := by
  constructor
  · simp only [handleRecord]
    rw [if_pos htype, hx, hy, hw, hh]
  · unfold _on_remote_mouse_pos
    rw [if_pos (Or.inr hbad)]

/-- Witness for the amended C6 at the concrete record `c6obj`. -/
theorem nonpositive_viewport_dropped_downstream_witness :
    handleRecord (some c6obj) = .continue_ (some (10, 10, -5, 100)) ∧
    _on_remote_mouse_pos ⟨0, 0, 640, 480⟩ 10 10 (-5) 100 = none :=
  nonpositive_viewport_dropped_downstream c6obj 10 10 (-5) 100 ⟨0, 0, 640, 480⟩
    rfl rfl rfl rfl rfl (Or.inl (by norm_num))

/-- C7: a frame that is not valid JSON, a record missing `type`, and a
record with an unrecognized `type` each produce no callback and leave the
read loop running; a well-formed `mouse_pos` record with numeric fields
invokes the callback with exactly those field values. -/
theorem handler_dispatch_spec :
    handleRecord none = .continue_ none ∧
    (∀ obj : MsgObj, obj.type? = none → handleRecord (some obj) = .continue_ none) ∧
    (∀ (obj : MsgObj) (t : JVal), obj.type? = some t → t ≠ .str "mouse_pos" →
      t ≠ .str "hello" → handleRecord (some obj) = .continue_ none) ∧
    (∀ (obj : MsgObj) (x y w h : ℚ), obj.type? = some (.str "mouse_pos") →
      obj.x? = some (.num x) → obj.y? = some (.num y) →
      obj.w? = some (.num w) → obj.h? = some (.num h) →
      handleRecord (some obj) = .continue_ (some (x, y, w, h))) := by
  refine ⟨rfl, ?_, ?_, ?_⟩
  · intro obj htype
    simp only [handleRecord]
    rw [if_neg (by rw [htype]; exact fun hcontra => Option.noConfusion hcontra)]
  · intro obj t htype hne _
    simp only [handleRecord]
    rw [if_neg (by rw [htype]; exact fun hcontra => hne (Option.some.inj hcontra))]
  · intro obj x y w h htype hx hy hw hh
    simp only [handleRecord]
    rw [if_pos htype, hx, hy, hw, hh]
    rfl

/-- Witness for C7: one malformed frame, one record with `type = "unknown"`,
one missing `type`, and one well-formed `mouse_pos` record. -/
theorem handler_dispatch_spec_witness :
    handleRecord none = .continue_ none ∧
    handleRecord (some ⟨none, some (.num 1), none, none, none⟩) = .continue_ none ∧
    handleRecord (some ⟨some (.str "unknown"), none, none, none, none⟩) = .continue_ none ∧
    handleRecord (some ⟨some (.str "mouse_pos"), some (.num 3), some (.num 4),
      some (.num 640), some (.num 480)⟩) = .continue_ (some (3, 4, 640, 480)) :=
  ⟨handler_dispatch_spec.1,
    handler_dispatch_spec.2.1 _ rfl,
    handler_dispatch_spec.2.2.1 _ (.str "unknown") rfl (by decide) (by decide),
    handler_dispatch_spec.2.2.2 _ 3 4 640 480 rfl rfl rfl rfl rfl⟩

end WsServer

namespace Tts

/-- Stage of the background `_worker` thread spawned for one utterance
generation (one per effective `speak` call): before the first staleness
checkpoint, synthesizing, before the second checkpoint, between passing the
second checkpoint and `pygame.mixer.music.play()` (the code releases the
lock there), done without playback, or playing. -/
inductive WStage
  | notSpawned
  | preCheck1
  | synthesizing
  | preCheck2
  | playPending
  | aborted
  | played
deriving Repr, DecidableEq

/-- The TTS-related state of a `MainWindow` (Computer/main_window.py):
`_tts_enabled`, `_tts_generation`, the single `pygame.mixer.music` stream
(`audible = some g` when generation `g`'s utterance is loaded and playing,
`none` after `music.stop()`), and the stage of each generation's worker.
Workers are keyed by their captured generation: each effective `speak`
increments the counter and hands the fresh value to exactly one worker. -/
structure TtsState where
  enabled : Bool
  gen : Nat
  audible : Option Nat
  worker : Nat → WStage

/-- Update one worker's stage. -/
def updW (f : Nat → WStage) (g : Nat) (st : WStage) : Nat → WStage :=
  fun g' => if g' = g then st else f g'

/-- An atomic step of the controller or of one worker thread.  The `speak`
argument records whether the text was nonempty after trimming. -/
inductive TtsAction
  | speak (textNonempty : Bool)
  | toggle
  | check1 (g : Nat)
  | synthDone (g : Nat)
  | synthFail (g : Nat)
  | initFail (g : Nat)
  | check2 (g : Nat)
  | play (g : Nat)
  | playFail (g : Nat)

/-- Small-step semantics of `MainWindow.speak`, `_toggle_tts` and `_worker`.
Each case mirrors one lock-guarded block of the source:

* `speak b`: return unchanged if disabled or the trimmed text is empty;
  otherwise (under `_tts_lock`) increment `_tts_generation`, hard-stop any
  playing audio, and spawn a worker carrying the fresh generation.
* `toggle`: `_toggle_tts` — disabling increments the generation and stops
  audio; enabling changes only the flag.
* `check1 g`: the worker's first checkpoint — abort on generation mismatch.
* `synthDone g` / `synthFail g`: the ElevenLabs call returns or raises (the
  exception is caught and the worker abandons the utterance).
* `initFail g`: `_get_eleven_client` or `_ensure_pygame_audio` fails, which
  also sets `_tts_enabled = False` and abandons the utterance.
* `check2 g`: the second checkpoint, under the lock — on mismatch return;
  otherwise hard-stop current audio, after which the lock is released.
* `play g`: `music.load` + `music.play` outside the lock.
* `playFail g`: `load`/`play` raises; caught and abandoned.

Actions whose worker is not at the matching stage are no-ops (such a thread
does not exist or is not at that program point). -/
def ttsStep (s : TtsState) : TtsAction → TtsState
  | .speak b =>
    if s.enabled && b then
      { s with gen := s.gen + 1, audible := none,
               worker := updW s.worker (s.gen + 1) .preCheck1 }
    else s
  | .toggle =>
    if s.enabled then
      { s with enabled := false, gen := s.gen + 1, audible := none }
    else { s with enabled := true }
  | .check1 g =>
    if s.worker g = .preCheck1 then
      if g = s.gen then { s with worker := updW s.worker g .synthesizing }
      else { s with worker := updW s.worker g .aborted }
    else s
  | .synthDone g =>
    if s.worker g = .synthesizing then { s with worker := updW s.worker g .preCheck2 } else s
  | .synthFail g =>
    if s.worker g = .synthesizing then { s with worker := updW s.worker g .aborted } else s
  | .initFail g =>
    if s.worker g = .synthesizing then
      { s with enabled := false, worker := updW s.worker g .aborted }
    else s
  | .check2 g =>
    if s.worker g = .preCheck2 then
      if g = s.gen then { s with audible := none, worker := updW s.worker g .playPending }
      else { s with worker := updW s.worker g .aborted }
    else s
  | .play g =>
    if s.worker g = .playPending then
      { s with audible := some g, worker := updW s.worker g .played }
    else s
  | .playFail g =>
    if s.worker g = .playPending then { s with worker := updW s.worker g .aborted } else s

/-- Run a sequence of interleaved steps. -/
def ttsRun (s : TtsState) (acts : List TtsAction) : TtsState :=
  acts.foldl ttsStep s

/-- The initial controller state: TTS enabled, generation `0`, silent, no
workers. -/
def ttsInit : TtsState :=
  { enabled := true, gen := 0, audible := none, worker := fun _ => .notSpawned }

/-- The staleness invariant for one superseded generation `g`. -/
def Stale (g : Nat) (s : TtsState) : Prop :=
  g < s.gen ∧ s.worker g ≠ .playPending ∧ s.worker g ≠ .played ∧ s.audible ≠ some g

lemma stale_step (g : Nat) (s : TtsState) (a : TtsAction) (h : Stale g s) :
    Stale g (ttsStep s a) := by
  obtain ⟨hgen, hnp, hnd, haud⟩ := h
  cases a with
  | speak b =>
    simp only [ttsStep]
    rcases Bool.eq_false_or_eq_true (s.enabled && b) with hb | hb
    · rw [hb, if_pos rfl]
      refine ⟨Nat.lt_succ_of_lt hgen, ?_, ?_, by simp⟩
      · show updW s.worker (s.gen + 1) .preCheck1 g ≠ .playPending
        unfold updW
        rw [if_neg (by omega)]
        exact hnp
      · show updW s.worker (s.gen + 1) .preCheck1 g ≠ .played
        unfold updW
        rw [if_neg (by omega)]
        exact hnd
    · rw [hb, if_neg Bool.false_ne_true]
      exact ⟨hgen, hnp, hnd, haud⟩
  | toggle =>
    simp only [ttsStep]
    rcases Bool.eq_false_or_eq_true s.enabled with hb | hb
    · rw [hb, if_pos rfl]
      exact ⟨Nat.lt_succ_of_lt hgen, hnp, hnd, by simp⟩
    · rw [hb, if_neg Bool.false_ne_true]
      exact ⟨hgen, hnp, hnd, haud⟩
  | check1 g' =>
    simp only [ttsStep]
    by_cases hst : s.worker g' = .preCheck1
    · rw [if_pos hst]
      by_cases hg : g' = s.gen
      · rw [if_pos hg]
        refine ⟨hgen, ?_, ?_, haud⟩ <;>
        · show updW s.worker g' .synthesizing g ≠ _
          unfold updW
          by_cases hgg : g = g'
          · rw [if_pos hgg]; intro hcontra; exact WStage.noConfusion hcontra
          · rw [if_neg hgg]; first | exact hnp | exact hnd
      · rw [if_neg hg]
        refine ⟨hgen, ?_, ?_, haud⟩ <;>
        · show updW s.worker g' .aborted g ≠ _
          unfold updW
          by_cases hgg : g = g'
          · rw [if_pos hgg]; intro hcontra; exact WStage.noConfusion hcontra
          · rw [if_neg hgg]; first | exact hnp | exact hnd
    · rw [if_neg hst]
      exact ⟨hgen, hnp, hnd, haud⟩
  | synthDone g' =>
    simp only [ttsStep]
    by_cases hst : s.worker g' = .synthesizing
    · rw [if_pos hst]
      refine ⟨hgen, ?_, ?_, haud⟩ <;>
      · show updW s.worker g' .preCheck2 g ≠ _
        unfold updW
        by_cases hgg : g = g'
        · rw [if_pos hgg]; intro hcontra; exact WStage.noConfusion hcontra
        · rw [if_neg hgg]; first | exact hnp | exact hnd
    · rw [if_neg hst]
      exact ⟨hgen, hnp, hnd, haud⟩
  | synthFail g' =>
    simp only [ttsStep]
    by_cases hst : s.worker g' = .synthesizing
    · rw [if_pos hst]
      refine ⟨hgen, ?_, ?_, haud⟩ <;>
      · show updW s.worker g' .aborted g ≠ _
        unfold updW
        by_cases hgg : g = g'
        · rw [if_pos hgg]; intro hcontra; exact WStage.noConfusion hcontra
        · rw [if_neg hgg]; first | exact hnp | exact hnd
    · rw [if_neg hst]
      exact ⟨hgen, hnp, hnd, haud⟩
  | initFail g' =>
    simp only [ttsStep]
    by_cases hst : s.worker g' = .synthesizing
    · rw [if_pos hst]
      refine ⟨hgen, ?_, ?_, haud⟩ <;>
      · show updW s.worker g' .aborted g ≠ _
        unfold updW
        by_cases hgg : g = g'
        · rw [if_pos hgg]; intro hcontra; exact WStage.noConfusion hcontra
        · rw [if_neg hgg]; first | exact hnp | exact hnd
    · rw [if_neg hst]
      exact ⟨hgen, hnp, hnd, haud⟩
  | check2 g' =>
    simp only [ttsStep]
    by_cases hst : s.worker g' = .preCheck2
    · rw [if_pos hst]
      by_cases hg : g' = s.gen
      · rw [if_pos hg]
        have hgg : g ≠ g' := by omega
        refine ⟨hgen, ?_, ?_, by intro hcontra; exact Option.noConfusion hcontra⟩ <;>
        · show updW s.worker g' .playPending g ≠ _
          unfold updW
          rw [if_neg hgg]
          first | exact hnp | exact hnd
      · rw [if_neg hg]
        refine ⟨hgen, ?_, ?_, haud⟩ <;>
        · show updW s.worker g' .aborted g ≠ _
          unfold updW
          by_cases hgg : g = g'
          · rw [if_pos hgg]; intro hcontra; exact WStage.noConfusion hcontra
          · rw [if_neg hgg]; first | exact hnp | exact hnd
    · rw [if_neg hst]
      exact ⟨hgen, hnp, hnd, haud⟩
  | play g' =>
    simp only [ttsStep]
    by_cases hst : s.worker g' = .playPending
    · rw [if_pos hst]
      have hgg : g ≠ g' := by
        intro hcontra
        rw [hcontra] at hnp
        exact hnp hst
      refine ⟨hgen, ?_, ?_, ?_⟩
      · show updW s.worker g' .played g ≠ _
        unfold updW
        rw [if_neg hgg]
        exact hnp
      · show updW s.worker g' .played g ≠ _
        unfold updW
        rw [if_neg hgg]
        exact hnd
      · show some g' ≠ some g
        intro hcontra
        exact hgg (Option.some.inj hcontra).symm
    · rw [if_neg hst]
      exact ⟨hgen, hnp, hnd, haud⟩
  | playFail g' =>
    simp only [ttsStep]
    by_cases hst : s.worker g' = .playPending
    · rw [if_pos hst]
      refine ⟨hgen, ?_, ?_, haud⟩ <;>
      · show updW s.worker g' .aborted g ≠ _
        unfold updW
        by_cases hgg : g = g'
        · rw [if_pos hgg]; intro hcontra; exact WStage.noConfusion hcontra
        · rw [if_neg hgg]; first | exact hnp | exact hnd
    · rw [if_neg hst]
      exact ⟨hgen, hnp, hnd, haud⟩

lemma stale_run (g : Nat) (s : TtsState) (acts : List TtsAction) (h : Stale g s) :
    Stale g (ttsRun s acts) := by
  induction acts generalizing s with
  | nil => exact h
  | cons a rest ih =>
    show Stale g (ttsRun (ttsStep s a) rest)
    exact ih (ttsStep s a) (stale_step g s a h)

/-- C1: once a newer `speak` (or disable) has advanced the generation past a
worker's captured generation `g` while that worker has not yet passed the
second staleness checkpoint, then under every further interleaving the stale
worker never starts playback: generation `g` is never the audible utterance
and its worker never reaches the played stage — so the most recently
requested utterance wins and at most one utterance is audible (the single
mixer stream holds at most one). -/
theorem stale_speak_never_audible (s : TtsState) (g : Nat) (acts : List TtsAction)
    (hgen : g < s.gen)
    (hnp : s.worker g ≠ .playPending) (hnd : s.worker g ≠ .played)
    (haud : s.audible ≠ some g) :
    (ttsRun s acts).audible ≠ some g ∧ (ttsRun s acts).worker g ≠ .played :=
  let h := stale_run g s acts ⟨hgen, hnp, hnd, haud⟩
  ⟨h.2.2.2, h.2.2.1⟩

/-- Witness for C1: `speak("A")` (generation 1) passes its first checkpoint
and is still synthesizing when `speak("B")` (generation 2) arrives; however
the interleaving continues, utterance 1 never becomes audible. -/
theorem stale_speak_never_audible_witness :
    (ttsRun (ttsRun ttsInit [.speak true, .check1 1, .speak true])
        [.synthDone 1, .check2 1, .play 1]).audible ≠ some 1 ∧
    (ttsRun (ttsRun ttsInit [.speak true, .check1 1, .speak true])
        [.synthDone 1, .check2 1, .play 1]).worker 1 ≠ .played :=
  stale_speak_never_audible (ttsRun ttsInit [.speak true, .check1 1, .speak true]) 1
    [.synthDone 1, .check2 1, .play 1] (by decide) (by decide) (by decide) (by decide)

/-- C9: the generation counter never decreases under any step; an accepted
`speak` (enabled, nonempty text) increments it by exactly one, a rejected
`speak` leaves it unchanged, an explicit disable increments it by exactly
one, re-enabling leaves it unchanged, and no worker step changes it. -/
theorem tts_generation_lifecycle (e b : Bool) (n : Nat) (aud : Option Nat)
    (w : Nat → WStage) :
    (∀ a : TtsAction, (⟨e, n, aud, w⟩ : TtsState).gen ≤ (ttsStep ⟨e, n, aud, w⟩ a).gen) ∧
    (ttsStep ⟨true, n, aud, w⟩ (.speak true)).gen = n + 1 ∧
    (ttsStep ⟨false, n, aud, w⟩ (.speak b)).gen = n ∧
    (ttsStep ⟨e, n, aud, w⟩ (.speak false)).gen = n ∧
    (ttsStep ⟨true, n, aud, w⟩ .toggle).gen = n + 1 ∧
    (ttsStep ⟨false, n, aud, w⟩ .toggle).gen = n ∧
    (∀ g : Nat, (ttsStep ⟨e, n, aud, w⟩ (.check1 g)).gen = n ∧
      (ttsStep ⟨e, n, aud, w⟩ (.synthDone g)).gen = n ∧
      (ttsStep ⟨e, n, aud, w⟩ (.synthFail g)).gen = n ∧
      (ttsStep ⟨e, n, aud, w⟩ (.initFail g)).gen = n ∧
      (ttsStep ⟨e, n, aud, w⟩ (.check2 g)).gen = n ∧
      (ttsStep ⟨e, n, aud, w⟩ (.play g)).gen = n ∧
      (ttsStep ⟨e, n, aud, w⟩ (.playFail g)).gen = n) := by
  refine ⟨?_, ?_, ?_, ?_, ?_, ?_, ?_⟩
  · intro a
    cases a <;> simp only [ttsStep] <;> (repeat' split) <;> simp
  · rfl
  · cases b <;> rfl
  · cases e <;> rfl
  · rfl
  · rfl
  · intro g
    refine ⟨?_, ?_, ?_, ?_, ?_, ?_, ?_⟩ <;>
    · simp only [ttsStep]
      (repeat' split) <;> rfl

end Tts
